import Mathlib

/-!
Formal model of the `@agent-starter/core` streaming pipeline and its API
transcoder, embedded shallowly in Lean.

The definitions below are direct translations of the TypeScript sources:
  - `packages/core/src/usage.ts`      (usage tracker)
  - `packages/core/src/todos.ts`      (todo extraction and progress)
  - `packages/core/src/messages.ts`   (raw-message extraction utilities)
  - `packages/core/src/run-query.ts`  (`streamQuery` event derivation)
  - `packages/api/src/ag-ui-stream.ts` (`streamQueryAsAgUi` transcoder)
  - `packages/core/src/sessions/*`    (session/environment managers)

Loosely-typed JavaScript records are modelled with `Option` fields for the
fields the code actually reads; JavaScript string-truthiness checks
(`if (sid)`) are modelled as an explicit non-empty-string test, and absent
fields (`undefined`) as `Option.none`.  Numbers are modelled as `Int`
(token counts); the `x ?? 0` defaulting of the source is `Option.getD 0`.
-/

namespace AgentStarter

/-! ## Data model (`packages/core/src/types.ts`) -/

/-- The four token-usage keys that `usage.ts` reads from a raw usage record
(`Record<string, number>`); a missing key is `none`. -/
structure UsageRecord where
  input_tokens : Option Int
  output_tokens : Option Int
  cache_read_input_tokens : Option Int
  cache_creation_input_tokens : Option Int
  deriving DecidableEq

/-- `UsageStats` from `types.ts`. -/
structure UsageStats where
  inputTokens : Int
  outputTokens : Int
  cacheReadInputTokens : Int
  cacheCreationInputTokens : Int
  deriving DecidableEq

/-- A raw todo entry as found in a TodoWrite tool invocation's input:
`{ content: string; status: string }`. -/
structure RawTodo where
  content : String
  status : String
  deriving DecidableEq

/-- Normalized todo status (`TodoItem["status"]` in `types.ts`). -/
inductive TodoStatus where
  | pending
  | in_progress
  | completed
  deriving DecidableEq

/-- `TodoItem` from `types.ts`. -/
structure TodoItem where
  content : String
  status : TodoStatus
  deriving DecidableEq

/-- `TodoProgress` from `types.ts`. -/
structure TodoProgress where
  todos : List TodoItem
  total : Nat
  completed : Nat
  inProgress : Nat
  pending : Nat
  deriving DecidableEq

/-- The projection of a tool invocation's `input` record that the core
reads: `todos.ts` looks only at `input.todos` (an array of raw todos when
present and well-formed, `none` otherwise).  `{}` is `⟨none⟩`. -/
structure ToolInput where
  todos : Option (List RawTodo)
  deriving DecidableEq

/-- `ToolCall` from `types.ts`; `id`/`name` are read with a plain cast in
`messages.ts`, so a malformed block leaves them absent. -/
structure ToolCall where
  id : Option String
  name : Option String
  input : ToolInput
  deriving DecidableEq

/-- A content fragment (content block) of an assistant message, with the
fields the core reads: `type`, `text`, `id`, `name`, `input`. -/
structure Block where
  type : Option String
  text : Option String
  id : Option String
  name : Option String
  input : Option ToolInput
  deriving DecidableEq

/-- The nested `message` record of a raw SDK message. -/
structure InnerMessage where
  id : Option String
  content : Option (List Block)
  usage : Option UsageRecord
  deriving DecidableEq

/-- The `delta` record of a partial-update stream event. -/
structure RawDelta where
  type : Option String
  text : Option String
  deriving DecidableEq

/-- The nested `event` record of a `stream_event` SDK message. -/
structure RawStreamEvent where
  type : Option String
  delta : Option RawDelta
  deriving DecidableEq

/-- A raw SDK message with the top-level fields `run-query.ts` and
`messages.ts` read: `type`, `message`, `sessionId`, `event` (partial
deltas), and the result message's `stop_reason` and `usage`. -/
structure SDKMessage where
  type : Option String
  message : Option InnerMessage
  sessionId : Option String
  event : Option RawStreamEvent
  stop_reason : Option String
  usage : Option UsageRecord
  deriving DecidableEq

/-! ## Usage tracker (`packages/core/src/usage.ts`) -/

/-- The closure state of `createUsageTracker()`: the `seen` dedup set and
the running `totals`. -/
structure TrackerState where
  seen : List String
  totals : UsageStats
  deriving DecidableEq

/-- Fresh tracker: empty dedup set, all totals zero. -/
def initialTracker : TrackerState :=
  { seen := [], totals := ⟨0, 0, 0, 0⟩ }

/-- `track(messageId, usage)`: returns early when `usage` is absent or the
id was already seen; otherwise records the id and adds the four fields
(missing fields default to 0). -/
def track (s : TrackerState) (messageId : String) (usage : Option UsageRecord) :
    TrackerState :=
  match usage with
  | none => s
  | some u =>
    if s.seen.contains messageId then s
    else
      { seen := messageId :: s.seen
        totals :=
          { inputTokens := s.totals.inputTokens + u.input_tokens.getD 0
            outputTokens := s.totals.outputTokens + u.output_tokens.getD 0
            cacheReadInputTokens :=
              s.totals.cacheReadInputTokens + u.cache_read_input_tokens.getD 0
            cacheCreationInputTokens :=
              s.totals.cacheCreationInputTokens + u.cache_creation_input_tokens.getD 0 } }

/-- `setTotals(usage)`: overwrites the totals with the record's four fields
(missing fields default to 0); the dedup set is untouched. -/
def setTotals (s : TrackerState) (usage : UsageRecord) : TrackerState :=
  { s with
    totals :=
      { inputTokens := usage.input_tokens.getD 0
        outputTokens := usage.output_tokens.getD 0
        cacheReadInputTokens := usage.cache_read_input_tokens.getD 0
        cacheCreationInputTokens := usage.cache_creation_input_tokens.getD 0 } }

/-- `getStats()`: returns (a copy of) the current totals. -/
def getStats (s : TrackerState) : UsageStats := s.totals

/-- A history of `track` calls on one tracker instance, applied in order to
a fresh tracker. -/
def runTrackHistory (calls : List (String × Option UsageRecord)) : TrackerState :=
  calls.foldl (fun s c => track s c.1 c.2) initialTracker

/-- One call on the tracker interface, for histories that mix `track` and
`setTotals`. -/
inductive TrackerCall where
  | trackCall (messageId : String) (usage : Option UsageRecord)
  | setTotalsCall (usage : UsageRecord)
  deriving DecidableEq

/-- Apply one tracker call. -/
def applyTrackerCall (s : TrackerState) : TrackerCall → TrackerState
  | .trackCall messageId usage => track s messageId usage
  | .setTotalsCall usage => setTotals s usage

/-- Run a mixed history of tracker calls from a fresh tracker. -/
def runTrackerCalls (calls : List TrackerCall) : TrackerState :=
  calls.foldl applyTrackerCall initialTracker

/-! ## Todos (`packages/core/src/todos.ts`) -/

/-- `normalizeTodoStatus`: "completed" and "done" map to completed,
"in_progress" to in_progress, anything else to pending. -/
def normalizeTodoStatus (status : String) : TodoStatus :=
  if status = "completed" ∨ status = "done" then .completed
  else if status = "in_progress" then .in_progress
  else .pending

/-- The per-item mapping inside `extractTodos`. -/
def normalizeTodo (t : RawTodo) : TodoItem :=
  { content := t.content, status := normalizeTodoStatus t.status }

/-- `extractTodos(contentBlocks)`: scans for a `tool_use` block named
`TodoWrite` whose input carries a `todos` array; a matching block without
such an array is skipped (the loop continues); `none` when the scan finds
nothing. -/
def extractTodos : List Block → Option (List TodoItem)
  | [] => none
  | block :: rest =>
    if block.type = some "tool_use" ∧ block.name = some "TodoWrite" then
      match block.input.bind ToolInput.todos with
      | some todos => some (todos.map normalizeTodo)
      | none => extractTodos rest
    else extractTodos rest

/-- `getTodoProgress(todos)`. -/
def getTodoProgress (todos : List TodoItem) : TodoProgress :=
  { todos := todos
    total := todos.length
    completed := (todos.filter (fun t => t.status == TodoStatus.completed)).length
    inProgress := (todos.filter (fun t => t.status == TodoStatus.in_progress)).length
    pending := (todos.filter (fun t => t.status == TodoStatus.pending)).length }

/-- `emptyProgress()`. -/
def emptyProgress : TodoProgress :=
  { todos := [], total := 0, completed := 0, inProgress := 0, pending := 0 }

/-! ## Message extraction (`packages/core/src/messages.ts`) -/

/-- `isAssistant(message)`. -/
def isAssistant (m : SDKMessage) : Bool := m.type == some "assistant"

/-- `isResult(message)`. -/
def isResult (m : SDKMessage) : Bool := m.type == some "result"

/-- `extractText(message)`: `""` when `message.message?.content` is absent,
else the join of the `text` of every block of type "text" (a missing
`text` field joins as `""`, as `Array.prototype.join` renders `undefined`). -/
def extractText (m : SDKMessage) : String :=
  match m.message.bind InnerMessage.content with
  | none => ""
  | some content =>
    String.join ((content.filter (fun b => b.type == some "text")).map
      (fun b => b.text.getD ""))

/-- `extractToolCalls(message)`: every block of type "tool_use", in order,
mapped to a `ToolCall` (`input ?? {}`). -/
def extractToolCalls (m : SDKMessage) : List ToolCall :=
  match m.message.bind InnerMessage.content with
  | none => []
  | some content =>
    (content.filter (fun b => b.type == some "tool_use")).map
      (fun b => { id := b.id, name := b.name, input := b.input.getD ⟨none⟩ })

/-- `getContentBlocks(message)`: `message.message?.content ?? []`. -/
def getContentBlocks (m : SDKMessage) : List Block :=
  (m.message.bind InnerMessage.content).getD []

/-- `getMessageId(message)`: `message.message?.id`. -/
def getMessageId (m : SDKMessage) : Option String :=
  m.message.bind InnerMessage.id

/-- `getUsage(message)`: `message.message?.usage`. -/
def getUsage (m : SDKMessage) : Option UsageRecord :=
  m.message.bind InnerMessage.usage

/-- `getSessionId(message)`: `message.sessionId`. -/
def getSessionId (m : SDKMessage) : Option String :=
  m.sessionId

/-- Specification-style in-order concatenation of the text of the "text"
fragments of a block list (absent `text` contributes `""`). -/
def textOfBlocks : List Block → String
  | [] => ""
  | b :: rest =>
    (if b.type == some "text" then b.text.getD "" else "") ++ textOfBlocks rest

/-- Specification-style in-order collection of the "tool_use" fragments of
a block list as normalized tool calls. -/
def toolCallsOfBlocks : List Block → List ToolCall
  | [] => []
  | b :: rest =>
    if b.type == some "tool_use" then
      { id := b.id, name := b.name, input := b.input.getD ⟨none⟩ } :: toolCallsOfBlocks rest
    else toolCallsOfBlocks rest

/-- A raw message with every field absent (the fully malformed input). -/
def emptyMessage : SDKMessage :=
  { type := none, message := none, sessionId := none, event := none
    stop_reason := none, usage := none }

/-- A content block that *is* a TodoWrite tool invocation but whose input
carries no `todos` array (`input.todos` is absent). -/
def todoWriteNoList : Block :=
  { type := some "tool_use", text := none, id := some "t1"
    name := some "TodoWrite", input := some ⟨none⟩ }

/-- Does a block satisfy the full guard of `extractTodos` (a TodoWrite
tool invocation that actually carries a `todos` array)? -/
def isTodoWriteWithList (b : Block) : Bool :=
  b.type == some "tool_use" && b.name == some "TodoWrite"
    && (b.input.bind ToolInput.todos).isSome

/-! ## Helper lemmas about `String.join` -/

theorem str_join_cons (s : String) (l : List String) :
    String.join (s :: l) = s ++ String.join l := by
  apply String.ext
  simp [String.data_join, String.data_append]

theorem str_join_append (l₁ l₂ : List String) :
    String.join (l₁ ++ l₂) = String.join l₁ ++ String.join l₂ := by
  apply String.ext
  simp [String.data_join, String.data_append]

/-- The three status filters of `getTodoProgress` partition any item list. -/
theorem filter_status_sum (items : List TodoItem) :
    (items.filter (fun t => t.status == TodoStatus.completed)).length
      + (items.filter (fun t => t.status == TodoStatus.in_progress)).length
      + (items.filter (fun t => t.status == TodoStatus.pending)).length
      = items.length := by
  induction items with
  | nil => rfl
  | cons t rest ih =>
    obtain ⟨c, st⟩ := t
    cases st <;> simp [List.filter_cons] <;> omega

/-- `extractText`'s filter/map/join pipeline computes the in-order
concatenation of the text fragments. -/
theorem textOfBlocks_join (blocks : List Block) :
    String.join ((blocks.filter (fun b => b.type == some "text")).map
      (fun b => b.text.getD "")) = textOfBlocks blocks := by
  induction blocks with
  | nil => rfl
  | cons b rest ih =>
    cases hb : (b.type == some "text") with
    | true => simp [List.filter_cons, hb, textOfBlocks, str_join_cons, ih]
    | false => simp [List.filter_cons, hb, textOfBlocks, ih, String.empty_append]

/-- `extractToolCalls`'s filter/map pipeline collects the tool-use
fragments in order. -/
theorem toolCallsOfBlocks_eq (blocks : List Block) :
    (blocks.filter (fun b => b.type == some "tool_use")).map
        (fun b => ToolCall.mk b.id b.name (b.input.getD ⟨none⟩))
      = toolCallsOfBlocks blocks := by
  induction blocks with
  | nil => rfl
  | cons b rest ih =>
    cases hb : (b.type == some "tool_use") with
    | true => simp [List.filter_cons, hb, toolCallsOfBlocks, ih]
    | false => simp [List.filter_cons, hb, toolCallsOfBlocks, ih]

/-- `extractTodos` is first-match search for a TodoWrite invocation that
carries a todos list. -/
theorem extractTodos_eq_findFirst (blocks : List Block) :
    extractTodos blocks
      = (blocks.find? isTodoWriteWithList).map
          (fun b => ((b.input.bind ToolInput.todos).getD []).map normalizeTodo) := by
  induction blocks with
  | nil => rfl
  | cons b rest ih =>
    by_cases h1 : b.type = some "tool_use" ∧ b.name = some "TodoWrite"
    · cases htodos : b.input.bind ToolInput.todos with
      | none =>
        have hb : isTodoWriteWithList b = false := by
          simp [isTodoWriteWithList, h1.1, h1.2, htodos]
        simp [extractTodos, if_pos h1, htodos, List.find?_cons, hb, ih]
      | some items =>
        have hb : isTodoWriteWithList b = true := by
          simp [isTodoWriteWithList, h1.1, h1.2, htodos]
        simp [extractTodos, if_pos h1, htodos, List.find?_cons, hb]
    · have hb : isTodoWriteWithList b = false := by
        rcases not_and_or.mp h1 with h | h <;> simp [isTodoWriteWithList, h]
      simp [extractTodos, if_neg h1, List.find?_cons, hb, ih]

/-! ## Claim theorems: usage tracker, todos, message extraction -/

/-- C4: for every sequence of `track(id, usage)` calls on one tracker
instance, a further `track` call whose message identity is already in the
dedup set, or whose usage record is absent, leaves all four totals
returned by `getStats` unchanged. -/
theorem track_seen_or_absent_unchanged (calls : List (String × Option UsageRecord))
    (messageId : String) (usage : Option UsageRecord)
    (h : (runTrackHistory calls).seen.contains messageId = true ∨ usage = none) :
    getStats (track (runTrackHistory calls) messageId usage)
      = getStats (runTrackHistory calls) := by
  rcases h with h | h
  · cases usage with
    | none => rfl
    | some u =>
      have hmem : messageId ∈ (runTrackHistory calls).seen := by simpa using h
      simp [track, hmem, getStats]
  · subst h; rfl

/-- Witness for C4: re-tracking the already-tracked id "m1" leaves the
totals unchanged. -/
theorem track_seen_or_absent_unchanged_witness :
    getStats (track (runTrackHistory [("m1", some ⟨some 7, some 3, none, none⟩)]) "m1"
        (some ⟨some 7, some 3, none, none⟩))
      = getStats (runTrackHistory [("m1", some ⟨some 7, some 3, none, none⟩)]) :=
  track_seen_or_absent_unchanged [("m1", some ⟨some 7, some 3, none, none⟩)] "m1"
    (some ⟨some 7, some 3, none, none⟩) (Or.inl (by decide))

/-- C5: after any prior history of `track` and `setTotals` calls,
`setTotals(U)` followed by `getStats()` yields exactly U's four counters
mapped field-for-field, any missing field defaulting to 0, independent of
the history and of the dedup set. -/
theorem setTotals_overwrites_history (calls : List TrackerCall) (u : UsageRecord) :
    getStats (setTotals (runTrackerCalls calls) u)
      = { inputTokens := u.input_tokens.getD 0
          outputTokens := u.output_tokens.getD 0
          cacheReadInputTokens := u.cache_read_input_tokens.getD 0
          cacheCreationInputTokens := u.cache_creation_input_tokens.getD 0 } := rfl

/-- C6: for every list of raw todo items, the derived progress snapshot
satisfies `completed + inProgress + pending = total = length`, the raw
status "done" normalizes to completed, and any unrecognized status
normalizes to pending. -/
theorem todoProgress_partition (raw : List RawTodo) :
    (getTodoProgress (raw.map normalizeTodo)).completed
        + (getTodoProgress (raw.map normalizeTodo)).inProgress
        + (getTodoProgress (raw.map normalizeTodo)).pending
      = (getTodoProgress (raw.map normalizeTodo)).total
  ∧ (getTodoProgress (raw.map normalizeTodo)).total = raw.length
  ∧ normalizeTodoStatus "done" = TodoStatus.completed
  ∧ (∀ st : String, st ≠ "completed" → st ≠ "done" → st ≠ "in_progress" →
      normalizeTodoStatus st = TodoStatus.pending) := by
  refine ⟨filter_status_sum _, by simp [getTodoProgress], by decide, ?_⟩
  intro st h1 h2 h3
  simp [normalizeTodoStatus, h1, h2, h3]

/-- Witness for C6: an unrecognized status maps to pending (via the
theorem applied at the empty list and the status "cancelled"). -/
theorem todoProgress_partition_witness :
    normalizeTodoStatus "cancelled" = TodoStatus.pending :=
  (todoProgress_partition []).2.2.2 "cancelled" (by decide) (by decide) (by decide)

/-- C7 counterexample: `todoWriteNoList` *is* a tool invocation named for
todo-list management, yet `extractTodos` on a content list containing it
returns `none` — refuting "null iff no fragment is a todo-management tool
invocation". -/
theorem extractTodos_null_despite_invocation :
    todoWriteNoList.type = some "tool_use"
  ∧ todoWriteNoList.name = some "TodoWrite"
  ∧ extractTodos [todoWriteNoList] = none :=
  ⟨rfl, rfl, rfl⟩

/-- C7 (amended): `extractTodos` returns `none` iff no fragment is a
TodoWrite tool invocation carrying a `todos` item list; when one exists it
returns the normalized item list of the *first* such fragment; and the
`none` result is distinguishable from a returned empty item list. -/
theorem extractTodos_first_with_list (blocks : List Block) :
    extractTodos blocks
      = (blocks.find? isTodoWriteWithList).map
          (fun b => ((b.input.bind ToolInput.todos).getD []).map normalizeTodo)
  ∧ (extractTodos blocks = none ↔ ∀ b ∈ blocks, isTodoWriteWithList b = false)
  ∧ some ([] : List TodoItem) ≠ (none : Option (List TodoItem)) := by
  refine ⟨extractTodos_eq_findFirst blocks, ?_, by simp⟩
  rw [extractTodos_eq_findFirst blocks]
  simp [List.find?_eq_none]

/-- Witness for C7: on a block list with no TodoWrite-with-list fragment,
`extractTodos` returns `none` (via the amended theorem's iff). -/
theorem extractTodos_first_with_list_witness :
    extractTodos [todoWriteNoList] = none :=
  (extractTodos_first_with_list [todoWriteNoList]).2.1.mpr
    (by intro b hb; simp at hb; subst hb; decide)

/-- C8: the message extractors are total on arbitrary raw messages: text
extraction is the in-order concatenation of text fragments (empty string
when content is absent), tool-call extraction is the ordered tool-use
list (empty when content is absent), and each accessor yields an absent
value when the underlying field is missing. -/
theorem messageExtractors_never_throw (m : SDKMessage) :
    extractText m = textOfBlocks (getContentBlocks m)
  ∧ extractToolCalls m = toolCallsOfBlocks (getContentBlocks m)
  ∧ (m.message = none →
      extractText m = "" ∧ extractToolCalls m = [] ∧ getContentBlocks m = []
        ∧ getMessageId m = none ∧ getUsage m = none ∧ getSessionId m = m.sessionId)
  ∧ (∀ im : InnerMessage, m.message = some im →
      (im.id = none → getMessageId m = none)
      ∧ (im.usage = none → getUsage m = none)
      ∧ (im.content = none →
          getContentBlocks m = [] ∧ extractText m = "" ∧ extractToolCalls m = [])) := by
  refine ⟨?_, ?_, ?_, ?_⟩
  · cases hm : m.message with
    | none => simp [extractText, getContentBlocks, hm, textOfBlocks]
    | some im =>
      cases hc : im.content with
      | none => simp [extractText, getContentBlocks, hm, hc, textOfBlocks]
      | some blocks => simp [extractText, getContentBlocks, hm, hc, textOfBlocks_join]
  · cases hm : m.message with
    | none => simp [extractToolCalls, getContentBlocks, hm, toolCallsOfBlocks]
    | some im =>
      cases hc : im.content with
      | none => simp [extractToolCalls, getContentBlocks, hm, hc, toolCallsOfBlocks]
      | some blocks =>
        simp [extractToolCalls, getContentBlocks, hm, hc, toolCallsOfBlocks_eq]
  · intro hm
    simp [extractText, extractToolCalls, getContentBlocks, getMessageId, getUsage,
      getSessionId, hm]
  · intro im hm
    refine ⟨fun hid => ?_, fun hu => ?_, fun hc => ?_⟩
    · simp [getMessageId, hm, hid]
    · simp [getUsage, hm, hu]
    · simp [getContentBlocks, extractText, extractToolCalls, hm, hc]

/-- Witness for C8: on the fully absent message every extractor yields its
empty/absent default. -/
theorem messageExtractors_never_throw_witness :
    extractText emptyMessage = "" ∧ getMessageId emptyMessage = none :=
  ⟨((messageExtractors_never_throw emptyMessage).2.2.1 rfl).1,
   ((messageExtractors_never_throw emptyMessage).2.2.1 rfl).2.2.2.1⟩

/-! ## Streaming orchestrator (`packages/core/src/run-query.ts`, `streamQuery`) -/

/-- `QueryResult` from `types.ts` (`stopReason` is a nullable string). -/
structure QueryResult where
  text : String
  sessionId : Option String
  stopReason : Option String
  usage : UsageStats
  todos : TodoProgress
  toolCalls : List ToolCall
  deriving DecidableEq

/-- `StreamEvent` from `types.ts` — the domain-event union. -/
inductive StreamEvent where
  | text_delta (text : String)
  | tool_call (toolCall : ToolCall)
  | todo_update (todos : TodoProgress)
  | usage (usage : UsageStats)
  | session (sessionId : String)
  | done (result : QueryResult)
  | error (error : String)
  deriving DecidableEq

/-- The loop state of `streamQuery`: the tracker plus the accumulated
`fullText`, `sessionId`, `stopReason`, `latestTodos` and `allToolCalls`. -/
structure StreamState where
  tracker : TrackerState
  fullText : String
  sessionId : Option String
  stopReason : Option String
  latestTodos : TodoProgress
  allToolCalls : List ToolCall
  deriving DecidableEq

/-- The state at the top of `streamQuery`. -/
def initialStreamState : StreamState :=
  { tracker := initialTracker, fullText := "", sessionId := none
    stopReason := none, latestTodos := emptyProgress, allToolCalls := [] }

/-- The session-identity step at the top of the loop body:
`if (sid && sid !== sessionId) { sessionId = sid; yield session }`
(JS string truthiness: the empty string is falsy). -/
def sessionStep (s : StreamState) (m : SDKMessage) : StreamState × List StreamEvent :=
  match getSessionId m with
  | some sid =>
    if sid ≠ "" ∧ s.sessionId ≠ some sid then
      ({ s with sessionId := some sid }, [StreamEvent.session sid])
    else (s, [])
  | none => (s, [])

/-- The text delta carried by a `stream_event` message, when its nested
`event` is a `content_block_delta` whose `delta` is a well-formed
`text_delta`. -/
def deltaTextOf (m : SDKMessage) : Option String :=
  match m.event with
  | none => none
  | some ev =>
    if ev.type = some "content_block_delta" then
      match ev.delta with
      | none => none
      | some d => if d.type = some "text_delta" then d.text else none
    else none

/-- The usage sub-step of the assistant branch: `if (msgId) { track(...);
yield usage(getStats()) }` (empty-string id is falsy in JS). -/
def assistantUsageStep (s : StreamState) (m : SDKMessage) :
    StreamState × List StreamEvent :=
  match getMessageId m with
  | some msgId =>
    if msgId ≠ "" then
      ({ s with tracker := track s.tracker msgId (getUsage m) },
       [StreamEvent.usage (getStats (track s.tracker msgId (getUsage m)))])
    else (s, [])
  | none => (s, [])

/-- The tool-call sub-step of the assistant branch: push each extracted
tool call and yield one `tool_call` event per call, in order. -/
def assistantToolStep (s : StreamState) (m : SDKMessage) :
    StreamState × List StreamEvent :=
  ({ s with allToolCalls := s.allToolCalls ++ extractToolCalls m },
   (extractToolCalls m).map StreamEvent.tool_call)

/-- The todo sub-step of the assistant branch: when the message carries a
todo snapshot, record its progress and yield one `todo_update`. -/
def assistantTodoStep (s : StreamState) (m : SDKMessage) :
    StreamState × List StreamEvent :=
  match extractTodos (getContentBlocks m) with
  | some todos =>
    ({ s with latestTodos := getTodoProgress todos },
     [StreamEvent.todo_update (getTodoProgress todos)])
  | none => (s, [])

/-- The whole `if (isAssistant(message))` branch: usage, then tool calls,
then todos. -/
def assistantStep (s : StreamState) (m : SDKMessage) :
    StreamState × List StreamEvent :=
  if isAssistant m then
    ((assistantTodoStep (assistantToolStep (assistantUsageStep s m).1 m).1 m).1,
     (assistantUsageStep s m).2
       ++ (assistantToolStep (assistantUsageStep s m).1 m).2
       ++ (assistantTodoStep (assistantToolStep (assistantUsageStep s m).1 m).1 m).2)
  else (s, [])

/-- The `if (isResult(message))` branch: record the stop reason; when the
result carries usage, overwrite the totals and yield a `usage` event. -/
def resultStep (s : StreamState) (m : SDKMessage) :
    StreamState × List StreamEvent :=
  if isResult m then
    match m.usage with
    | some u =>
      ({ s with stopReason := m.stop_reason
                tracker := setTotals s.tracker u },
       [StreamEvent.usage (getStats (setTotals s.tracker u))])
    | none => ({ s with stopReason := m.stop_reason }, [])
  else (s, [])

/-- One iteration of `streamQuery`'s `for await` body: the session step,
then either the partial-delta branch (`continue`) or the assistant and
result branches. -/
def processMessage (s : StreamState) (m : SDKMessage) :
    StreamState × List StreamEvent :=
  let s1 := (sessionStep s m).1
  let sessionEvts := (sessionStep s m).2
  if m.type = some "stream_event" then
    match deltaTextOf m with
    | some t =>
      ({ s1 with fullText := s1.fullText ++ t },
       sessionEvts ++ [StreamEvent.text_delta t])
    | none => (s1, sessionEvts)
  else
    let s2 := (assistantStep s1 m).1
    let s3 := (resultStep s2 m).1
    (s3, sessionEvts ++ (assistantStep s1 m).2 ++ (resultStep s2 m).2)

/-- Fold `processMessage` over the whole raw stream, concatenating the
yielded events. -/
def processMessages (s : StreamState) : List SDKMessage → StreamState × List StreamEvent
  | [] => (s, [])
  | m :: rest =>
    ((processMessages (processMessage s m).1 rest).1,
     (processMessage s m).2 ++ (processMessages (processMessage s m).1 rest).2)

/-- The aggregated result carried by the final `done` event. -/
def finalResult (s : StreamState) : QueryResult :=
  { text := s.fullText, sessionId := s.sessionId, stopReason := s.stopReason
    usage := getStats s.tracker, todos := s.latestTodos, toolCalls := s.allToolCalls }

/-- `streamQuery` in streaming mode, as a function from the raw message
stream (consumed to completion without an exception) to the emitted
domain-event sequence: the per-message events followed by exactly one
`done` event. -/
def streamQuery (msgs : List SDKMessage) : List StreamEvent :=
  (processMessages initialStreamState msgs).2
    ++ [StreamEvent.done (finalResult (processMessages initialStreamState msgs).1)]

/-- Is an event a `usage` event? -/
def isUsageEvent : StreamEvent → Bool
  | .usage _ => true
  | _ => false

/-- Is an event a `tool_call` or `todo_update` event? -/
def isToolOrTodoEvent : StreamEvent → Bool
  | .tool_call _ => true
  | .todo_update _ => true
  | _ => false

/-- The text carried by a `text_delta` event. -/
def deltaTextOfEvent : StreamEvent → Option String
  | .text_delta t => some t
  | _ => none

/-- A concrete raw assistant message carrying a message id, a usage record
and one tool-use content block. -/
def assistantToolMsg : SDKMessage :=
  { type := some "assistant"
    message := some { id := some "m1"
                      content := some [{ type := some "tool_use", text := none
                                         id := some "tc1", name := some "Bash"
                                         input := some ⟨none⟩ }]
                      usage := some ⟨some 5, some 2, none, none⟩ }
    sessionId := none, event := none, stop_reason := none, usage := none }

/-! ## Ordering of per-message derived events -/

/-- If `P` holds nowhere in `l₂` and `Q` holds nowhere in `l₁`, then inside
`l₁ ++ l₂` every index where `P` holds comes before every index where `Q`
holds. -/
theorem idx_lt_of_partition {α : Type} (l₁ l₂ : List α) (P Q : α → Bool)
    (hP : ∀ e ∈ l₂, P e = false) (hQ : ∀ e ∈ l₁, Q e = false)
    (i j : Nat) (ei ej : α)
    (hei : (l₁ ++ l₂)[i]? = some ei) (hej : (l₁ ++ l₂)[j]? = some ej)
    (hPi : P ei = true) (hQj : Q ej = true) : i < j := by
  have hi1 : i < l₁.length := by
    by_contra hge
    push_neg at hge
    rw [List.getElem?_append_right hge] at hei
    have hmem : ei ∈ l₂ := List.getElem?_mem hei
    rw [hP ei hmem] at hPi
    exact Bool.noConfusion hPi
  have hj1 : l₁.length ≤ j := by
    by_contra hlt
    push_neg at hlt
    rw [List.getElem?_append_left hlt] at hej
    have hmem : ej ∈ l₁ := List.getElem?_mem hej
    rw [hQ ej hmem] at hQj
    exact Bool.noConfusion hQj
  omega

theorem sessionStep_events (s : StreamState) (m : SDKMessage) :
    ∀ e ∈ (sessionStep s m).2,
      isUsageEvent e = false ∧ isToolOrTodoEvent e = false
      ∧ deltaTextOfEvent e = none := by
  intro e he
  unfold sessionStep at he
  split at he
  · split at he
    · simp at he
      subst he
      exact ⟨rfl, rfl, rfl⟩
    · simp at he
  · simp at he

theorem assistantUsageStep_events (s : StreamState) (m : SDKMessage) :
    ∀ e ∈ (assistantUsageStep s m).2,
      isToolOrTodoEvent e = false ∧ deltaTextOfEvent e = none := by
  intro e he
  unfold assistantUsageStep at he
  split at he
  · split at he
    · simp at he
      subst he
      exact ⟨rfl, rfl⟩
    · simp at he
  · simp at he

theorem assistantToolStep_events (s : StreamState) (m : SDKMessage) :
    ∀ e ∈ (assistantToolStep s m).2,
      isUsageEvent e = false ∧ deltaTextOfEvent e = none := by
  unfold assistantToolStep
  simp only [List.mem_map]
  rintro e ⟨tc, _, rfl⟩
  simp [isUsageEvent, deltaTextOfEvent]

theorem assistantTodoStep_events (s : StreamState) (m : SDKMessage) :
    ∀ e ∈ (assistantTodoStep s m).2,
      isUsageEvent e = false ∧ deltaTextOfEvent e = none := by
  intro e he
  unfold assistantTodoStep at he
  split at he
  · simp at he
    subst he
    exact ⟨rfl, rfl⟩
  · simp at he

theorem resultStep_events (s : StreamState) (m : SDKMessage) :
    ∀ e ∈ (resultStep s m).2,
      isToolOrTodoEvent e = false ∧ deltaTextOfEvent e = none := by
  intro e he
  unfold resultStep at he
  split at he
  · split at he
    · simp at he
      subst he
      exact ⟨rfl, rfl⟩
    · simp at he
  · simp at he

/-- A message of type "assistant" is not a result message. -/
theorem not_result_of_assistant (m : SDKMessage) (h : isAssistant m = true) :
    isResult m = false := by
  simp only [isAssistant, beq_iff_eq] at h
  simp [isResult, h]

/-- C1 counterexample: for the concrete assistant message
`assistantToolMsg`, which yields both a `usage` event and a `tool_call`
event, `streamQuery`'s loop body emits the `usage` event at index 0 and
the `tool_call` event at index 1 — the `usage` event precedes, refuting
"usage is emitted after (never before) the tool_call and todo_update
events of the same message". -/
theorem streamQuery_usage_order_counterexample :
    (processMessage initialStreamState assistantToolMsg).2
      = [StreamEvent.usage ⟨5, 2, 0, 0⟩,
         StreamEvent.tool_call ⟨some "tc1", some "Bash", ⟨none⟩⟩]
  ∧ (processMessage initialStreamState assistantToolMsg).2.findIdx isUsageEvent = 0
  ∧ (processMessage initialStreamState assistantToolMsg).2.findIdx isToolOrTodoEvent = 1
  ∧ ¬ ((processMessage initialStreamState assistantToolMsg).2.findIdx isToolOrTodoEvent
        < (processMessage initialStreamState assistantToolMsg).2.findIdx isUsageEvent) :=
  ⟨rfl, rfl, rfl, by decide⟩

/-- C1 (amended): among the events that `streamQuery`'s loop body derives
from one raw message, every `usage` event is emitted before (never after)
every `tool_call` and `todo_update` event derived from the same message. -/
theorem processMessage_usage_precedes (s : StreamState) (m : SDKMessage)
    (i j : Nat) (eu et : StreamEvent)
    (hu : (processMessage s m).2[i]? = some eu)
    (ht : (processMessage s m).2[j]? = some et)
    (hU : isUsageEvent eu = true) (hT : isToolOrTodoEvent et = true) : i < j := by
  by_cases hstream : m.type = some "stream_event"
  · -- the partial-delta branch derives no tool_call/todo_update events
    have hall : ∀ e ∈ (processMessage s m).2, isToolOrTodoEvent e = false := by
      intro e he
      cases hdelta : deltaTextOf m with
      | some t =>
        simp only [processMessage, if_pos hstream, hdelta] at he
        rcases List.mem_append.mp he with h | h
        · exact (sessionStep_events s m e h).2.1
        · simp only [List.mem_singleton] at h
          subst h; rfl
      | none =>
        simp only [processMessage, if_pos hstream, hdelta] at he
        exact (sessionStep_events s m e he).2.1
    have := hall et (List.getElem?_mem ht)
    rw [hT] at this
    exact Bool.noConfusion this
  · by_cases hassist : isAssistant m = true
    · have hres : isResult m = false := not_result_of_assistant m hassist
      have hevts : (processMessage s m).2
          = ((sessionStep s m).2 ++ (assistantUsageStep (sessionStep s m).1 m).2)
            ++ ((assistantToolStep (assistantUsageStep (sessionStep s m).1 m).1 m).2
                ++ (assistantTodoStep
                      (assistantToolStep (assistantUsageStep (sessionStep s m).1 m).1 m).1
                      m).2) := by
        simp [processMessage, if_neg hstream, assistantStep, hassist, resultStep, hres,
          List.append_assoc]
      rw [hevts] at hu ht
      refine idx_lt_of_partition _ _ isUsageEvent isToolOrTodoEvent ?_ ?_ i j eu et hu ht hU hT
      · intro e he
        rcases List.mem_append.mp he with h | h
        · exact (assistantToolStep_events _ m e h).1
        · exact (assistantTodoStep_events _ m e h).1
      · intro e he
        rcases List.mem_append.mp he with h | h
        · exact (sessionStep_events s m e h).2.1
        · exact (assistantUsageStep_events _ m e h).1
    · -- neither a delta nor an assistant message: no tool_call/todo_update at all
      have hfalse : isAssistant m = false := by simpa using hassist
      have hall : ∀ e ∈ (processMessage s m).2, isToolOrTodoEvent e = false := by
        intro e he
        simp only [processMessage, if_neg hstream, assistantStep, hfalse,
          Bool.false_eq_true, if_false, List.nil_append, List.append_nil] at he
        rcases List.mem_append.mp he with h | h
        · exact (sessionStep_events s m e h).2.1
        · exact (resultStep_events _ m e h).1
      have := hall et (List.getElem?_mem ht)
      rw [hT] at this
      exact Bool.noConfusion this

/-- Witness for C1's amended theorem: applied to `assistantToolMsg`, whose
derived events put the `usage` event at index 0 and the `tool_call` event
at index 1, giving 0 < 1. -/
theorem processMessage_usage_precedes_witness : (0 : Nat) < 1 :=
  processMessage_usage_precedes initialStreamState assistantToolMsg 0 1
    (StreamEvent.usage ⟨5, 2, 0, 0⟩)
    (StreamEvent.tool_call ⟨some "tc1", some "Bash", ⟨none⟩⟩)
    rfl rfl rfl rfl

/-! ## The final text equals the concatenation of the streamed deltas -/

theorem str_append_assoc (a b c : String) : a ++ b ++ c = a ++ (b ++ c) := by
  apply String.ext
  simp [String.data_append]

theorem str_join_nil : String.join [] = "" := rfl

theorem sessionStep_fullText (s : StreamState) (m : SDKMessage) :
    (sessionStep s m).1.fullText = s.fullText := by
  unfold sessionStep
  split
  · split <;> rfl
  · rfl

theorem assistantStep_fullText (s : StreamState) (m : SDKMessage) :
    (assistantStep s m).1.fullText = s.fullText := by
  have husage : ∀ s', (assistantUsageStep s' m).1.fullText = s'.fullText := by
    intro s'
    unfold assistantUsageStep
    split
    · split <;> rfl
    · rfl
  have htodo : ∀ s', (assistantTodoStep s' m).1.fullText = s'.fullText := by
    intro s'
    unfold assistantTodoStep
    split <;> rfl
  unfold assistantStep
  split
  · rw [htodo]
    show (assistantToolStep _ m).1.fullText = _
    unfold assistantToolStep
    simp only []
    rw [husage]
  · rfl

theorem resultStep_fullText (s : StreamState) (m : SDKMessage) :
    (resultStep s m).1.fullText = s.fullText := by
  unfold resultStep
  split
  · split <;> rfl
  · rfl

/-- The per-message invariant: the loop body adds exactly the text of the
`text_delta` events it yields to `fullText`; events derived from completed
assistant messages and result messages contribute nothing. -/
theorem processMessage_fullText (s : StreamState) (m : SDKMessage) :
    (processMessage s m).1.fullText
      = s.fullText
          ++ String.join ((processMessage s m).2.filterMap deltaTextOfEvent) := by
  have hsess : (sessionStep s m).2.filterMap deltaTextOfEvent = [] :=
    List.filterMap_eq_nil_iff.mpr (fun e he => (sessionStep_events s m e he).2.2)
  by_cases hstream : m.type = some "stream_event"
  · cases hdelta : deltaTextOf m with
    | some t =>
      simp only [processMessage, if_pos hstream, hdelta, List.filterMap_append, hsess,
        List.nil_append, sessionStep_fullText]
      simp [deltaTextOfEvent, str_join_cons, str_join_nil, String.append_empty]
    | none =>
      simp only [processMessage, if_pos hstream, hdelta, hsess, sessionStep_fullText]
      rw [str_join_nil, String.append_empty]
  · have hassistEvts : (assistantStep (sessionStep s m).1 m).2.filterMap deltaTextOfEvent
        = [] := by
      refine List.filterMap_eq_nil_iff.mpr (fun e he => ?_)
      unfold assistantStep at he
      split at he
      · rcases List.mem_append.mp he with h | h
        · rcases List.mem_append.mp h with h2 | h2
          · exact (assistantUsageStep_events _ m e h2).2
          · exact (assistantToolStep_events _ m e h2).2
        · exact (assistantTodoStep_events _ m e h).2
      · simp at he
    have hresEvts : ∀ s', (resultStep s' m).2.filterMap deltaTextOfEvent = [] := by
      intro s'
      exact List.filterMap_eq_nil_iff.mpr (fun e he => (resultStep_events s' m e he).2)
    simp only [processMessage, if_neg hstream, List.filterMap_append, hsess,
      hassistEvts, hresEvts, List.nil_append, List.append_nil,
      resultStep_fullText, assistantStep_fullText, sessionStep_fullText]
    rw [str_join_nil, String.append_empty]

/-- Folding the loop over any suffix accumulates exactly the joined deltas. -/
theorem processMessages_fullText (msgs : List SDKMessage) : ∀ s : StreamState,
    (processMessages s msgs).1.fullText
      = s.fullText
          ++ String.join ((processMessages s msgs).2.filterMap deltaTextOfEvent) := by
  induction msgs with
  | nil =>
    intro s
    show s.fullText = s.fullText ++ String.join (List.filterMap deltaTextOfEvent [])
    rw [List.filterMap_nil, str_join_nil, String.append_empty]
  | cons m rest ih =>
    intro s
    show (processMessages (processMessage s m).1 rest).1.fullText = _
    rw [ih (processMessage s m).1, processMessage_fullText s m]
    show _ = s.fullText ++ String.join (((processMessage s m).2
      ++ (processMessages (processMessage s m).1 rest).2).filterMap deltaTextOfEvent)
    rw [List.filterMap_append, str_join_append, str_append_assoc]

/-- C10: for every raw message stream consumed to completion, `streamQuery`
ends with exactly one `done` event, and the `text` of its result is the
in-order concatenation of the text of every `text_delta` event emitted
during the turn — text extracted from completed assistant messages is
never added (only the partial-delta channel feeds `fullText`). -/
theorem streamQuery_done_text (msgs : List SDKMessage) :
    (streamQuery msgs).getLast?
      = some (StreamEvent.done (finalResult (processMessages initialStreamState msgs).1))
  ∧ (finalResult (processMessages initialStreamState msgs).1).text
      = String.join ((streamQuery msgs).filterMap deltaTextOfEvent) := by
  constructor
  · simp [streamQuery]
  · have h := processMessages_fullText msgs initialStreamState
    simp only [streamQuery, List.filterMap_append]
    have hdone : ([StreamEvent.done
        (finalResult (processMessages initialStreamState msgs).1)].filterMap
          deltaTextOfEvent) = [] := by simp [deltaTextOfEvent]
    rw [hdone, List.append_nil]
    show (processMessages initialStreamState msgs).1.fullText = _
    rw [h]
    show "" ++ _ = _
    rw [String.empty_append]

/-! ## AG-UI transcoder (`packages/api/src/ag-ui-stream.ts`) -/

/-- The AG-UI protocol events yielded by `streamQueryAsAgUi`, before SSE
encoding (the `encode` wrapper adds only a wall-clock timestamp). -/
inductive AgUiEvent where
  | run_started (threadId runId : String)
  | text_message_start (messageId : String)
  | text_message_content (messageId : String) (delta : String)
  | text_message_end (messageId : String)
  | tool_call_start (toolCallId : Option String) (toolCallName : Option String)
      (parentMessageId : String)
  | tool_call_args (toolCallId : Option String) (input : ToolInput)
  | tool_call_end (toolCallId : Option String)
  | custom_todo_update (value : TodoProgress)
  | custom_usage (value : UsageStats)
  | custom_session (sessionId : String)
  | custom_done_result (value : QueryResult)
  | run_finished (threadId runId : String)
  | run_error (message : String)
  deriving DecidableEq

/-- The generator's mutable state: `messageStarted` and `messageSegment`
(the fixed `messageId` base is a parameter below). -/
structure AgUiState where
  messageStarted : Bool
  messageSegment : Nat
  deriving DecidableEq

/-- `currentMessageId()`: the base id for segment 0, else the base id
suffixed with the segment counter. -/
def currentMessageId (baseId : String) (st : AgUiState) : String :=
  if st.messageSegment = 0 then baseId
  else baseId ++ "-" ++ toString st.messageSegment

/-- `closeTextMessage()`: when a text message is open, emit one
TEXT_MESSAGE_END for the current identity and clear the flag. -/
def closeTextMessage (baseId : String) (st : AgUiState) :
    AgUiState × List AgUiEvent :=
  if st.messageStarted then
    ({ st with messageStarted := false },
     [AgUiEvent.text_message_end (currentMessageId baseId st)])
  else (st, [])

/-- `handleEvent(event)`: map one Domain Event to AG-UI events, updating
the segment state exactly as the source's switch does. -/
def handleEvent (baseId threadId runId : String) (st : AgUiState)
    (e : StreamEvent) : AgUiState × List AgUiEvent :=
  match e with
  | .text_delta t =>
    if st.messageStarted then
      (st, [AgUiEvent.text_message_content (currentMessageId baseId st) t])
    else
      ({ st with messageStarted := true },
       [AgUiEvent.text_message_start (currentMessageId baseId st),
        AgUiEvent.text_message_content (currentMessageId baseId st) t])
  | .tool_call tc =>
    ({ (closeTextMessage baseId st).1 with
        messageSegment := (closeTextMessage baseId st).1.messageSegment + 1 },
     (closeTextMessage baseId st).2
       ++ [AgUiEvent.tool_call_start tc.id tc.name
             (currentMessageId baseId (closeTextMessage baseId st).1),
           AgUiEvent.tool_call_args tc.id tc.input,
           AgUiEvent.tool_call_end tc.id])
  | .todo_update todos => (st, [AgUiEvent.custom_todo_update todos])
  | .usage u => (st, [AgUiEvent.custom_usage u])
  | .session sid => (st, [AgUiEvent.custom_session sid])
  | .done result =>
    ((closeTextMessage baseId st).1,
     (closeTextMessage baseId st).2
       ++ [AgUiEvent.custom_done_result result,
           AgUiEvent.run_finished threadId runId])
  | .error msg =>
    ((closeTextMessage baseId st).1,
     (closeTextMessage baseId st).2 ++ [AgUiEvent.run_error msg])

/-- Consume a list of Domain Events with `handleEvent`, concatenating the
emitted AG-UI events. -/
def handleEvents (baseId threadId runId : String) (st : AgUiState) :
    List StreamEvent → AgUiState × List AgUiEvent
  | [] => (st, [])
  | e :: rest =>
    ((handleEvents baseId threadId runId (handleEvent baseId threadId runId st e).1 rest).1,
     (handleEvent baseId threadId runId st e).2
       ++ (handleEvents baseId threadId runId
             (handleEvent baseId threadId runId st e).1 rest).2)

/-- The state at the top of the generator. -/
def initialAgUiState : AgUiState := { messageStarted := false, messageSegment := 0 }

/-- `streamQueryAsAgUi`: RUN_STARTED first, then the transcoding of the
consumed Domain Events.  `streamError = some msg` models an exception
propagating out of the consumed stream after `input` was yielded: the
catch block closes any open text message, emits RUN_ERROR, and returns
(no further events).  With `streamError = none` the loop runs to
completion and the generator ends. -/
def streamQueryAsAgUi (baseId threadId runId : String)
    (input : List StreamEvent) (streamError : Option String) : List AgUiEvent :=
  AgUiEvent.run_started threadId runId ::
    (match streamError with
     | some msg =>
       (handleEvents baseId threadId runId initialAgUiState input).2
         ++ (closeTextMessage baseId
               (handleEvents baseId threadId runId initialAgUiState input).1).2
         ++ [AgUiEvent.run_error msg]
     | none => (handleEvents baseId threadId runId initialAgUiState input).2)

/-- Is an AG-UI event the run-error lifecycle event? -/
def isRunErrorEvent : AgUiEvent → Bool
  | .run_error _ => true
  | _ => false

/-- Is an AG-UI event the run-finished lifecycle event? -/
def isRunFinishedEvent : AgUiEvent → Bool
  | .run_finished _ _ => true
  | _ => false

/-- Is an AG-UI event a text-message-end event? -/
def isTextEndEvent : AgUiEvent → Bool
  | .text_message_end _ => true
  | _ => false

/-- The text-message identity used by a text-message event (start, content
or end); `none` for every other event kind. -/
def textMessageIdOf : AgUiEvent → Option String
  | .text_message_start messageId => some messageId
  | .text_message_content messageId _ => some messageId
  | .text_message_end messageId => some messageId
  | _ => none

/-- The Domain Event sequence of the two-segment scenario:
`[text_delta, text_delta, tool_call, text_delta, done]`. -/
def twoSegmentInput (t1 t2 t3 : String) (tc : ToolCall) (res : QueryResult) :
    List StreamEvent :=
  [StreamEvent.text_delta t1, StreamEvent.text_delta t2, StreamEvent.tool_call tc,
   StreamEvent.text_delta t3, StreamEvent.done res]

/-- C2 counterexample: on the Domain Event input
`[error "boom", text_delta "hi"]` the transcoder emits the run-error at
index 1 of a four-event output — a text-message start and content event
are still produced *after* the run-error, refuting "no further events of
any kind are produced after it". -/
theorem agui_error_continues_counterexample :
    streamQueryAsAgUi "msg" "t" "r"
        [StreamEvent.error "boom", StreamEvent.text_delta "hi"] none
      = [AgUiEvent.run_started "t" "r",
         AgUiEvent.run_error "boom",
         AgUiEvent.text_message_start "msg",
         AgUiEvent.text_message_content "msg" "hi"]
  ∧ (streamQueryAsAgUi "msg" "t" "r"
        [StreamEvent.error "boom", StreamEvent.text_delta "hi"] none).findIdx
        isRunErrorEvent = 1
  ∧ (streamQueryAsAgUi "msg" "t" "r"
        [StreamEvent.error "boom", StreamEvent.text_delta "hi"] none).length = 4 :=
  ⟨rfl, rfl, rfl⟩

/-- The events emitted by `closeTextMessage` never include a run-error. -/
theorem closeTextMessage_no_run_error (baseId : String) (st : AgUiState) :
    (closeTextMessage baseId st).2.countP isRunErrorEvent = 0 := by
  unfold closeTextMessage
  split <;> rfl

/-- C2 (amended): on an exception propagating out of the consumed stream,
any open text segment is closed, exactly one additional run-error
lifecycle event is emitted, and it is the last event — no events follow
it.  On an `error` *domain event*, the open text segment is closed and a
run-error is emitted for it, but consumption does not stop (events from
later domain events may still follow, as the counterexample shows). -/
theorem agui_error_amended (baseId threadId runId msg : String)
    (input : List StreamEvent) :
    (streamQueryAsAgUi baseId threadId runId input (some msg)).getLast?
      = some (AgUiEvent.run_error msg)
  ∧ (streamQueryAsAgUi baseId threadId runId input (some msg)).countP isRunErrorEvent
      = (streamQueryAsAgUi baseId threadId runId input none).countP isRunErrorEvent + 1
  ∧ (∀ st e, (handleEvent baseId threadId runId st (StreamEvent.error e)).2
      = (closeTextMessage baseId st).2 ++ [AgUiEvent.run_error e])
  ∧ (∀ st : AgUiState, st.messageStarted = true →
      (closeTextMessage baseId st).2
        = [AgUiEvent.text_message_end (currentMessageId baseId st)]) := by
  refine ⟨?_, ?_, fun st e => rfl, fun st h => by simp [closeTextMessage, h]⟩
  · show (AgUiEvent.run_started threadId runId ::
      ((handleEvents baseId threadId runId initialAgUiState input).2
        ++ (closeTextMessage baseId
              (handleEvents baseId threadId runId initialAgUiState input).1).2
        ++ [AgUiEvent.run_error msg])).getLast? = _
    rw [show AgUiEvent.run_started threadId runId ::
        ((handleEvents baseId threadId runId initialAgUiState input).2
          ++ (closeTextMessage baseId
                (handleEvents baseId threadId runId initialAgUiState input).1).2
          ++ [AgUiEvent.run_error msg])
      = (AgUiEvent.run_started threadId runId ::
          ((handleEvents baseId threadId runId initialAgUiState input).2
            ++ (closeTextMessage baseId
                  (handleEvents baseId threadId runId initialAgUiState input).1).2))
        ++ [AgUiEvent.run_error msg] by simp]
    exact List.getLast?_concat _
  · show (AgUiEvent.run_started threadId runId ::
      ((handleEvents baseId threadId runId initialAgUiState input).2
        ++ (closeTextMessage baseId
              (handleEvents baseId threadId runId initialAgUiState input).1).2
        ++ [AgUiEvent.run_error msg])).countP isRunErrorEvent
      = (AgUiEvent.run_started threadId runId ::
          (handleEvents baseId threadId runId initialAgUiState input).2).countP
            isRunErrorEvent + 1
    simp [List.countP_cons, List.countP_append, closeTextMessage_no_run_error,
      isRunErrorEvent]

/-- Witness for C2's amended theorem: with an open text message and an
exception "boom", the run-error event is the last emitted event. -/
theorem agui_error_amended_witness :
    (streamQueryAsAgUi "msg" "t" "r" [StreamEvent.text_delta "hi"]
        (some "boom")).getLast? = some (AgUiEvent.run_error "boom") :=
  (agui_error_amended "msg" "t" "r" "boom" [StreamEvent.text_delta "hi"]).1

/-- C3: for the Domain Event input
`[text_delta, text_delta, tool_call, text_delta, done]` the transcoder
uses exactly two distinct text-message identities, emits exactly two
text-message-end events, both of them strictly before the run-finished
lifecycle event (which is the final event). -/
theorem agui_two_text_segments (b t r t1 t2 t3 : String) (tc : ToolCall)
    (res : QueryResult) :
    ((streamQueryAsAgUi b t r (twoSegmentInput t1 t2 t3 tc res) none).filterMap
        textMessageIdOf).toFinset.card = 2
  ∧ (streamQueryAsAgUi b t r (twoSegmentInput t1 t2 t3 tc res) none).countP
      isTextEndEvent = 2
  ∧ ((streamQueryAsAgUi b t r (twoSegmentInput t1 t2 t3 tc res) none).takeWhile
        (fun e => !isRunFinishedEvent e)).countP isTextEndEvent = 2
  ∧ (streamQueryAsAgUi b t r (twoSegmentInput t1 t2 t3 tc res) none).getLast?
      = some (AgUiEvent.run_finished t r) := by
  have hne : b ≠ b ++ "-" ++ toString (1 : Nat) := by
    intro h
    have hlen := congrArg String.length h
    have h1 : ("-" : String).length = 1 := rfl
    have h2 : (toString (1 : Nat)).length = 1 := rfl
    simp [String.length_append, h1, h2] at hlen
    omega
  refine ⟨?_, rfl, rfl, rfl⟩
  rw [show (streamQueryAsAgUi b t r (twoSegmentInput t1 t2 t3 tc res) none).filterMap
        textMessageIdOf
      = [b, b, b, b, b ++ "-" ++ toString (1 : Nat), b ++ "-" ++ toString (1 : Nat),
         b ++ "-" ++ toString (1 : Nat)] from rfl]
  simp only [List.toFinset_cons, List.toFinset_nil, insert_emptyc_eq,
    Finset.insert_idem]
  rw [show ({b, b ++ "-" ++ toString (1 : Nat), b ++ "-" ++ toString (1 : Nat)} :
      Finset String) = {b, b ++ "-" ++ toString (1 : Nat)} by simp]
  exact Finset.card_pair hne

/-! ## Session/environment managers (`packages/core/src/sessions/*`)

Each strategy is a state machine.  `crypto.randomUUID()` is modelled by
passing the fresh identifier as an explicit argument; the filesystem (for
the local strategy) is the set of existing per-environment directories,
and Docker containers are an association list.  `mkdirCount`/`runCount`
count resource creations (`mkdir` invocations / `docker run` invocations),
so "no second resource is allocated" is "the counter does not change".
The JS maps' `get`-after-`set` behaviour is an association list consulted
front-to-back. -/

/-- State of `LocalSessionManager`: the sessionId→envId map, the set of
existing session directories (by envId), and the number of `mkdir` calls. -/
structure LocalState where
  sessionToEnv : List (String × String)
  dirs : List String
  mkdirCount : Nat
  deriving DecidableEq

/-- `LocalSessionManager.prepare(sessionId)` with `freshId` standing for
`crypto.randomUUID()`: when resuming, look up the environment; create the
directory only when it does not exist. -/
def localPrepare (s : LocalState) (sessionId : Option String) (freshId : String) :
    LocalState × String :=
  let existingEnvId : Option String :=
    match sessionId with
    | some sid => if sid ≠ "" then List.lookup sid s.sessionToEnv else none
    | none => none
  let envId := existingEnvId.getD freshId
  if envId ∈ s.dirs then (s, envId)
  else ({ s with dirs := envId :: s.dirs, mkdirCount := s.mkdirCount + 1 }, envId)

/-- `LocalSessionManager.mapSession(sdkSessionId, envId)`. -/
def localMapSession (s : LocalState) (sdkSessionId envId : String) : LocalState :=
  { s with sessionToEnv := (sdkSessionId, envId) :: s.sessionToEnv }

/-- A running container of `DockerSessionManager`. -/
structure ContainerInfo where
  containerId : String
  port : Nat
  deriving DecidableEq

/-- State of `DockerSessionManager`: envId→container map, sessionId→envId
map, and the number of `docker run` invocations. -/
structure DockerState where
  containers : List (String × ContainerInfo)
  sessionToEnv : List (String × String)
  runCount : Nat
  deriving DecidableEq

/-- `DockerSessionManager.prepare(sessionId)`: when the session maps to an
envId whose container is alive, reuse it without starting a container;
otherwise start a new container under a fresh envId (`newContainer`
standing for the `docker run` result). -/
def dockerPrepare (s : DockerState) (sessionId : Option String) (freshId : String)
    (newContainer : ContainerInfo) : DockerState × String :=
  let existingEnvId : Option String :=
    match sessionId with
    | some sid => if sid ≠ "" then List.lookup sid s.sessionToEnv else none
    | none => none
  let reuse : Option String :=
    match existingEnvId with
    | some envId =>
      if envId ≠ "" ∧ (List.lookup envId s.containers).isSome then some envId
      else none
    | none => none
  match reuse with
  | some envId => (s, envId)
  | none =>
    ({ s with containers := (freshId, newContainer) :: s.containers
              runCount := s.runCount + 1 },
     freshId)

/-- `DockerSessionManager.mapSession(sdkSessionId, envId)`. -/
def dockerMapSession (s : DockerState) (sdkSessionId envId : String) : DockerState :=
  { s with sessionToEnv := (sdkSessionId, envId) :: s.sessionToEnv }

/-- State of `AzureSessionManager`: only the sessionId→envId map (Azure
allocates the remote session container on first use of an identifier, and
the same identifier always routes to the same container). -/
structure AzureState where
  sessionToEnv : List (String × String)
  deriving DecidableEq

/-- `AzureSessionManager.prepare(sessionId)`: reuse the mapped identifier
or take a fresh one; no local resource is ever created. -/
def azurePrepare (s : AzureState) (sessionId : Option String) (freshId : String) :
    AzureState × String :=
  let existingEnvId : Option String :=
    match sessionId with
    | some sid => if sid ≠ "" then List.lookup sid s.sessionToEnv else none
    | none => none
  (s, existingEnvId.getD freshId)

/-- `AzureSessionManager.mapSession(sdkSessionId, envId)`. -/
def azureMapSession (s : AzureState) (sdkSessionId envId : String) : AzureState :=
  { s with sessionToEnv := (sdkSessionId, envId) :: s.sessionToEnv }

/-- When the conversation identity maps to an envId whose directory
exists, `localPrepare` returns it and changes nothing. -/
theorem localPrepare_reuse (s : LocalState) (sid envId fresh : String)
    (hsid : sid ≠ "") (hlook : List.lookup sid s.sessionToEnv = some envId)
    (hmem : envId ∈ s.dirs) :
    localPrepare s (some sid) fresh = (s, envId) := by
  unfold localPrepare
  simp [hsid, hlook, hmem]

/-- When the conversation identity maps to an envId whose container is
alive, `dockerPrepare` returns it and changes nothing. -/
theorem dockerPrepare_reuse (s : DockerState) (sid envId fresh : String)
    (c : ContainerInfo) (hsid : sid ≠ "") (henv : envId ≠ "")
    (hlook : List.lookup sid s.sessionToEnv = some envId)
    (hcont : (List.lookup envId s.containers).isSome = true) :
    dockerPrepare s (some sid) fresh c = (s, envId) := by
  unfold dockerPrepare
  simp [hsid, hlook, henv, hcont]

/-- When the conversation identity maps to an envId, `azurePrepare`
returns it and changes nothing. -/
theorem azurePrepare_reuse (s : AzureState) (sid envId fresh : String)
    (hsid : sid ≠ "") (hlook : List.lookup sid s.sessionToEnv = some envId) :
    azurePrepare s (some sid) fresh = (s, envId) := by
  unfold azurePrepare
  simp [hsid, hlook]

/-- C9: for each strategy, after `prepare()` returns `env` and
`mapSession(X, env.envId)` associates the conversation identity `X` with
it, a subsequent `prepare(X)` returns the same envId with the state
entirely unchanged — in particular no second directory (`mkdirCount`) or
container (`runCount`) is created. -/
theorem prepare_reuses_environment
    (ls : LocalState) (ds : DockerState) (as' : AzureState)
    (X fresh1 fresh2 : String) (c1 c2 : ContainerInfo)
    (hX : X ≠ "") (hfresh : fresh1 ≠ "") :
    (localPrepare (localMapSession (localPrepare ls none fresh1).1 X
        (localPrepare ls none fresh1).2) (some X) fresh2
      = (localMapSession (localPrepare ls none fresh1).1 X
          (localPrepare ls none fresh1).2,
         (localPrepare ls none fresh1).2))
  ∧ (dockerPrepare (dockerMapSession (dockerPrepare ds none fresh1 c1).1 X
        (dockerPrepare ds none fresh1 c1).2) (some X) fresh2 c2
      = (dockerMapSession (dockerPrepare ds none fresh1 c1).1 X
          (dockerPrepare ds none fresh1 c1).2,
         (dockerPrepare ds none fresh1 c1).2))
  ∧ (azurePrepare (azureMapSession (azurePrepare as' none fresh1).1 X
        (azurePrepare as' none fresh1).2) (some X) fresh2
      = (azureMapSession (azurePrepare as' none fresh1).1 X
          (azurePrepare as' none fresh1).2,
         (azurePrepare as' none fresh1).2)) := by
  refine ⟨?_, ?_, ?_⟩
  · have henv : (localPrepare ls none fresh1).2 = fresh1 := by
      by_cases hm : fresh1 ∈ ls.dirs <;> simp [localPrepare, hm]
    have hdir : fresh1 ∈ (localPrepare ls none fresh1).1.dirs := by
      by_cases hm : fresh1 ∈ ls.dirs <;> simp [localPrepare, hm]
    refine localPrepare_reuse _ X (localPrepare ls none fresh1).2 fresh2 hX ?_ ?_
    · simp [localMapSession, List.lookup_cons_self]
    · show (localPrepare ls none fresh1).2 ∈ (localPrepare ls none fresh1).1.dirs
      rw [henv]
      exact hdir
  · have hcont : (List.lookup fresh1
        (dockerPrepare ds none fresh1 c1).1.containers).isSome = true := by
      show (List.lookup fresh1 ((fresh1, c1) :: ds.containers)).isSome = true
      simp [List.lookup_cons_self]
    refine dockerPrepare_reuse _ X (dockerPrepare ds none fresh1 c1).2 fresh2 c2 hX
      ?_ ?_ ?_
    · exact hfresh
    · simp [dockerMapSession, List.lookup_cons_self]
    · exact hcont
  · refine azurePrepare_reuse _ X (azurePrepare as' none fresh1).2 fresh2 hX ?_
    simp [azureMapSession, List.lookup_cons_self]

/-- Witness for C9: the reuse equations at a concrete conversation
identity, fresh ids, and containers, starting from empty manager states. -/
theorem prepare_reuses_environment_witness :
    localPrepare (localMapSession (localPrepare ⟨[], [], 0⟩ none "e1").1 "X"
        (localPrepare ⟨[], [], 0⟩ none "e1").2) (some "X") "e2"
      = (localMapSession (localPrepare ⟨[], [], 0⟩ none "e1").1 "X"
          (localPrepare ⟨[], [], 0⟩ none "e1").2,
         (localPrepare ⟨[], [], 0⟩ none "e1").2) :=
  (prepare_reuses_environment ⟨[], [], 0⟩ ⟨[], [], 0⟩ ⟨[]⟩ "X" "e1" "e2"
    ⟨"c1", 3000⟩ ⟨"c2", 3001⟩ (by decide) (by decide)).1

end AgentStarter
